import Mathlib

/-!
Verification development for the `idawasm` WebAssembly processor module
(`idawasm/processor.py`).  The Python source is shallowly embedded below:

* the single-pass branch-target resolver `_compute_function_branch_targets`
  and its multi-function driver `_compute_branch_targets`;
* the edge-synthesis logic of `ev_emu_insn` together with the
  `notify_emu_*` helpers (control-flow cross-references only; the data
  references `add_dref` and all host-API rendering calls are outside the
  control-flow model);
* the section lookups `_get_section` / `_get_section_offset`;
* the table builders `_parse_imported_functions`,
  `_parse_exported_functions`, `_parse_functions`,
  `_parse_imported_globals`, `_parse_globals` and `_parse_data`,
  and the globals step of `load`;
* the opcode-table guard at the top of `ev_ana_insn`;
* the `no_exceptions` decorator.

Python exceptions are modelled with `Option`/`Except`; Python `dict`s by
insertion-ordered association lists; the mutable block table by an
index-stable list with entries referenced by integer index (back-filled
fields such as `end_offset` become `Option Nat`).  Instruction decoding
itself is performed by the external `wasm` library, so the resolver and
the emulator consume already-decoded instruction streams.
-/

namespace Idawasm

/-- Lookup in an insertion-ordered association list (Python `dict` read). -/
def alookup {β : Type} (m : List (Nat × β)) (k : Nat) : Option β :=
  match m with
  | [] => none
  | (k', v) :: rest => if k' = k then some v else alookup rest k

/-- Insert-or-replace in an insertion-ordered association list
(Python `dict` write: an existing key keeps its position). -/
def upsert {β : Type} (m : List (Nat × β)) (k : Nat) (v : β) : List (Nat × β) :=
  match m with
  | [] => [(k, v)]
  | (k', v') :: rest => if k' = k then (k, v) :: rest else (k', v') :: upsert rest k v

/-- Operation class of a decoded wasm instruction, as far as the
control-flow code distinguishes them (`bc.op.id` / `insn.itype`). -/
inductive WOp where
  | blockOp | loopOp | ifOp | elseOp | endOp
  | br (d : Nat)
  | brIf (d : Nat)
  | brTable (targets : List Nat) (dflt : Nat)
  | ret
  | unreachableOp
  | other
deriving DecidableEq, Repr

/-- One decoded instruction: its operation and its encoded length `bc.len`. -/
structure Insn where
  op : WOp
  len : Nat
deriving DecidableEq, Repr

/-- The `'type'` string stored in a block record. -/
inductive BlockKind where
  | block | loop | ifKind | function
deriving DecidableEq, Repr

/-- A block record as built by `_compute_function_branch_targets`
(the Python dict with keys `index`, `offset`, `end_offset`, `else_offset`,
`br_table_target`, `depth`, `type`).  The synthetic function-scope block
omits the `index`, `else_offset` and `br_table_target` keys in Python; we
use `0` / `none` there. -/
structure Block where
  index : Nat
  offset : Nat
  end_offset : Option Nat
  else_offset : Option Nat
  br_table_target : Option Nat
  depth : Nat
  type : BlockKind
deriving DecidableEq, Repr

/-- A value of the `branch_targets` map.  Block records proper live in the
append-only block table and are referenced by index, mirroring the shared
mutable dicts of the Python code; the synthetic function-scope block is a
fresh record not present in the table, so it is stored inline. -/
inductive BTEntry where
  | selfRef (idx : Nat)
  | selfFun (b : Block)
  | branches (m : List (Nat × Nat))
deriving DecidableEq, Repr

/-- Resolver state: the block table `blocks`, the stack of block indexes
`block_stack` (head = innermost), and the `branch_targets` map. -/
structure CFState where
  blocks : List Block
  blockStack : List Nat
  branchTargets : List (Nat × BTEntry)
deriving DecidableEq, Repr

/-- Scan the block stack top-down for the nearest `if` block
(the `Else` handler's loop).  `some (some i)` = found index `i`,
`some none` = no `if` on the stack (the Python loop just falls through),
`none` = dangling block index (impossible in real runs, a `KeyError`). -/
def elseScan (blocks : List Block) : List Nat → Option (Option Nat)
  | [] => some none
  | bi :: rest =>
    match blocks.get? bi with
    | none => none
    | some b => if b.type = BlockKind.ifKind then some (some bi) else elseScan blocks rest

/-- The `br_table` loop: resolve every relative depth in
`targets ++ [default]` through the stack, marking each resolved block's
`br_table_target` and recording one map entry per distinct depth.
An out-of-range depth raises (deque `IndexError`), modelled as `none`. -/
def brTableGo (blocks : List Block) (stack : List Nat) (entries : List (Nat × Nat)) :
    List Nat → Option (List Block × List (Nat × Nat))
  | [] => some (blocks, entries)
  | d :: rest =>
    match stack.get? d with
    | none => none
    | some bi =>
      match blocks.get? bi with
      | none => none
      | some b =>
        brTableGo (blocks.set bi ({ b with br_table_target := some d })) stack
          (upsert entries d bi) rest

/-- One step of `_compute_function_branch_targets` at address `p`.
Returns the new state and a stop flag (`true` iff the function-terminating
`End` was reached, the Python `break`); `none` models an uncaught
exception (an out-of-range deque index or a dangling block reference). -/
def stepCFG (fnStart : Nat) (st : CFState) (p : Nat) (i : Insn) : Option (CFState × Bool) :=
  match i.op with
  | WOp.blockOp | WOp.loopOp | WOp.ifOp =>
    let bi := st.blocks.length
    let b : Block :=
      { index := bi, offset := p, end_offset := none, else_offset := none,
        br_table_target := none, depth := st.blockStack.length,
        type := match i.op with
                | WOp.blockOp => BlockKind.block
                | WOp.loopOp => BlockKind.loop
                | _ => BlockKind.ifKind }
    some ({ blocks := st.blocks ++ [b], blockStack := bi :: st.blockStack,
            branchTargets := upsert st.branchTargets p (BTEntry.selfRef bi) }, false)
  | WOp.endOp =>
    match st.blockStack with
    | [] =>
      let fb : Block :=
        { index := 0, offset := fnStart, end_offset := some p, else_offset := none,
          br_table_target := none, depth := 0, type := BlockKind.function }
      some ({ st with branchTargets := upsert st.branchTargets p (BTEntry.selfFun fb) }, true)
    | bi :: rest =>
      match st.blocks.get? bi with
      | none => none
      | some b =>
        some ({ blocks := st.blocks.set bi ({ b with end_offset := some (p + i.len) }),
                blockStack := rest,
                branchTargets := upsert st.branchTargets p (BTEntry.selfRef bi) }, false)
  | WOp.br d | WOp.brIf d =>
    match st.blockStack.get? d with
    | none => none
    | some bi =>
      let e := BTEntry.branches [(d, bi)]
      some ({ st with branchTargets := upsert st.branchTargets p e }, false)
  | WOp.elseOp =>
    match elseScan st.blocks st.blockStack with
    | none => none
    | some none => some (st, false)
    | some (some bi) =>
      match st.blocks.get? bi with
      | none => none
      | some b =>
        some ({ st with
                blocks := st.blocks.set bi ({ b with else_offset := some (p + i.len) }),
                branchTargets := upsert st.branchTargets p (BTEntry.selfRef bi) }, false)
  | WOp.brTable ts dflt =>
    match brTableGo st.blocks st.blockStack [] (ts ++ [dflt]) with
    | none => none
    | some (blocks', entries) =>
      some ({ st with
              blocks := blocks',
              branchTargets := upsert st.branchTargets p (BTEntry.branches entries) }, false)
  | _ => some (st, false)

/-- The resolver's instruction loop: address-ordered forward pass,
stopping at the function-terminating `End`. -/
def runCFG (fnStart : Nat) : List Insn → CFState → Nat → Option CFState
  | [], st, _ => some st
  | i :: rest, st, p =>
    match stepCFG fnStart st p i with
    | none => none
    | some (st', true) => some st'
    | some (st', false) => runCFG fnStart rest st' (p + i.len)

/-- `_compute_function_branch_targets(offset, code)` over an
already-decoded instruction stream. -/
def compute_function_branch_targets (offset : Nat) (code : List Insn) : Option CFState :=
  runCFG offset code { blocks := [], blockStack := [], branchTargets := [] } offset

/-- One iteration of the body loop of `_compute_branch_targets`: resolve
the body and merge its map into the accumulator with `dict.update`. -/
def cbtStep (acc : Option (List (Nat × BTEntry))) (body : Nat × List Insn) :
    Option (List (Nat × BTEntry)) :=
  match acc, compute_function_branch_targets body.1 body.2 with
  | some m, some st => some (st.branchTargets.foldl (fun m2 kv => upsert m2 kv.1 kv.2) m)
  | _, _ => none

/-- `_compute_branch_targets`: resolve every function body in order and
merge the per-function maps.  There is no per-function exception handling
in the Python source, so one failing body aborts the whole computation. -/
def compute_branch_targets (bodies : List (Nat × List Insn)) :
    Option (List (Nat × BTEntry)) :=
  bodies.foldl cbtStep (some [])

/-- Kind of a control-flow cross-reference: ordinary flow (`fl_F`) or a
jump (`fl_JF`). -/
inductive CrefKind where
  | fl_F | fl_JF
deriving DecidableEq, Repr

/-- One control-flow cross-reference added by `ida_xref.add_cref`. -/
structure Edge where
  src : Nat
  dst : Nat
  kind : CrefKind
deriving DecidableEq, Repr

/-- Emulation state: the control-flow edges added so far (in call order)
plus the two deferred-edge maps of the processor object. -/
structure EmuState where
  edges : List Edge
  deferred_flows : List (Nat × List Edge)
  deferred_noflows : List Nat
deriving DecidableEq, Repr

/-- The empty emulation state. -/
def emuInit : EmuState :=
  { edges := [], deferred_flows := [], deferred_noflows := [] }

/-- Record one `add_cref` call. -/
def addCref (st : EmuState) (src dst : Nat) (k : CrefKind) : EmuState :=
  { st with edges := st.edges ++ [{ src := src, dst := dst, kind := k }] }

/-- Record `deferred_noflows[ea] = True` (a dict used as a set). -/
def addNoflow (st : EmuState) (ea : Nat) : EmuState :=
  if st.deferred_noflows.contains ea then st
  else { st with deferred_noflows := st.deferred_noflows ++ [ea] }

/-- An instruction as `ev_emu_insn` sees it: address, operation
(including the decoded operand the handlers read) and size. -/
structure InsnAt where
  ea : Nat
  op : WOp
  len : Nat
deriving DecidableEq, Repr

/-- Python truthiness of an optional integer (`if else_va:`). -/
def truthy : Option Nat → Bool
  | some v => v ≠ 0
  | none => false

/-- The `targets[relative_depth]` read of the branch handlers, resolving
the stored block index through the block table.  A `'block'`-style entry
has no integer keys, so the read raises (`KeyError`) — modelled `none`. -/
def entryDepth (blocks : List Block) (e : BTEntry) (d : Nat) : Option Block :=
  match e with
  | BTEntry.branches m => (alookup m d).bind (fun bi => blocks.get? bi)
  | _ => none

/-- The `targets.values()` read, resolving stored indices to blocks. -/
def entryValues (blocks : List Block) : BTEntry → Option (List Block)
  | BTEntry.selfRef i => (blocks.get? i).map (fun b => [b])
  | BTEntry.selfFun b => some [b]
  | BTEntry.branches m => listBlocks blocks m
where
  /-- Resolve each stored block index in order. -/
  listBlocks (blocks : List Block) : List (Nat × Nat) → Option (List Block)
  | [] => some []
  | (_, bi) :: rest =>
    match blocks.get? bi with
    | none => none
    | some b => (listBlocks blocks rest).map (fun bs => b :: bs)

/-- The `'block'` read of `notify_emu_END` (`KeyError` on a branches-style
entry, modelled `none`). -/
def entrySelf (blocks : List Block) : BTEntry → Option Block
  | BTEntry.selfRef i => blocks.get? i
  | BTEntry.selfFun b => some b
  | BTEntry.branches _ => none

/-- The extracted `end_offset` targets of a list of blocks; `none` when a
block's `end_offset` is still unset (Python `None`, which would flow into
the host API and fail there). -/
def endOffsets : List Block → Option (List Nat)
  | [] => some []
  | b :: rest =>
    match b.end_offset with
    | none => none
    | some t => (endOffsets rest).map (fun ts => t :: ts)

/-- Add one `fl_JF` cref per resolved block's `end_offset`, in order
(the loop of `notify_emu_BR_TABLE_END`).  The returned flag is `false`
when a block's `end_offset` is unset and the step raises; crefs already
added are kept, matching Python side-effect order. -/
def addTableCrefs (st : EmuState) (src : Nat) : List Block → EmuState × Bool
  | [] => (st, true)
  | b :: rest =>
    match b.end_offset with
    | none => (st, false)
    | some t => addTableCrefs (addCref st src t CrefKind.fl_JF) src rest

/-- The loop of `notify_emu_IF`: for each structural reference, jump to a
truthy `else_offset`, otherwise to `end_offset`. -/
def addIfCrefs (st : EmuState) (src : Nat) : List Block → EmuState × Bool
  | [] => (st, true)
  | b :: rest =>
    if truthy b.else_offset then
      match b.else_offset with
      | some ev => addIfCrefs (addCref st src ev CrefKind.fl_JF) src rest
      | none => (st, false)
    else
      match b.end_offset with
      | some t => addIfCrefs (addCref st src t CrefKind.fl_JF) src rest
      | none => (st, false)

/-- `notify_emu_BR_END`: unconditional branch followed by `END`.
The branch flows to the `END`; the `END` is marked no-flow; the branch
target edge (to the resolved block's `end_offset`) is deferred onto the
`END`'s address. -/
def notify_emu_BR_END (blocks : List Block) (bt : List (Nat × BTEntry))
    (st : EmuState) (i nxt : InsnAt) (d : Nat) : EmuState × Bool :=
  let st := addCref st i.ea (i.ea + i.len) CrefKind.fl_F
  let st := addNoflow st nxt.ea
  match alookup bt i.ea with
  | none => (st, true)
  | some e =>
    match entryDepth blocks e d with
    | none => (st, false)
    | some b =>
      match b.end_offset with
      | none => (st, false)
      | some t =>
        let fl : List Edge := [{ src := nxt.ea, dst := t, kind := CrefKind.fl_JF }]
        ({ st with deferred_flows := upsert st.deferred_flows nxt.ea fl }, true)

/-- `notify_emu_BR_IF_END`: conditional branch followed by `END`.
Same as `notify_emu_BR_END` but the `END` keeps its normal flow. -/
def notify_emu_BR_IF_END (blocks : List Block) (bt : List (Nat × BTEntry))
    (st : EmuState) (i nxt : InsnAt) (d : Nat) : EmuState × Bool :=
  let st := addCref st i.ea (i.ea + i.len) CrefKind.fl_F
  match alookup bt i.ea with
  | none => (st, true)
  | some e =>
    match entryDepth blocks e d with
    | none => (st, false)
    | some b =>
      match b.end_offset with
      | none => (st, false)
      | some t =>
        let fl : List Edge := [{ src := nxt.ea, dst := t, kind := CrefKind.fl_JF }]
        ({ st with deferred_flows := upsert st.deferred_flows nxt.ea fl }, true)

/-- `notify_emu_BR_TABLE_END`: emit one jump per recorded target from the
`br_table`'s own address.  Note: nothing is deferred and the following
`END` is not marked no-flow. -/
def notify_emu_BR_TABLE_END (blocks : List Block) (bt : List (Nat × BTEntry))
    (st : EmuState) (i : InsnAt) : EmuState × Bool :=
  match alookup bt i.ea with
  | none => (st, true)
  | some e =>
    match entryValues blocks e with
    | none => (st, false)
    | some bs => addTableCrefs st i.ea bs

/-- `notify_emu_RETURN_END`: the return flows into the `END`, which is
marked no-flow. -/
def notify_emu_RETURN_END (st : EmuState) (i nxt : InsnAt) : EmuState × Bool :=
  let st := addCref st i.ea (i.ea + i.len) CrefKind.fl_F
  (addNoflow st nxt.ea, true)

/-- `notify_emu_BR`: unconditional branch not followed by `END`: just the
jump to the resolved block's `end_offset`, no fallthrough. -/
def notify_emu_BR (blocks : List Block) (bt : List (Nat × BTEntry))
    (st : EmuState) (i : InsnAt) (d : Nat) : EmuState × Bool :=
  match alookup bt i.ea with
  | none => (st, true)
  | some e =>
    match entryDepth blocks e d with
    | none => (st, false)
    | some b =>
      match b.end_offset with
      | none => (st, false)
      | some t => (addCref st i.ea t CrefKind.fl_JF, true)

/-- `notify_emu_BR_IF`: conditional branch not followed by `END`:
fallthrough plus the jump. -/
def notify_emu_BR_IF (blocks : List Block) (bt : List (Nat × BTEntry))
    (st : EmuState) (i : InsnAt) (d : Nat) : EmuState × Bool :=
  let st := addCref st i.ea (i.ea + i.len) CrefKind.fl_F
  match alookup bt i.ea with
  | none => (st, true)
  | some e =>
    match entryDepth blocks e d with
    | none => (st, false)
    | some b =>
      match b.end_offset with
      | none => (st, false)
      | some t => (addCref st i.ea t CrefKind.fl_JF, true)

/-- `notify_emu_IF`: fallthrough plus a jump to `else_offset` if truthy,
else to `end_offset`, per structural reference. -/
def notify_emu_IF (blocks : List Block) (bt : List (Nat × BTEntry))
    (st : EmuState) (i : InsnAt) : EmuState × Bool :=
  let st := addCref st i.ea (i.ea + i.len) CrefKind.fl_F
  match alookup bt i.ea with
  | none => (st, true)
  | some e =>
    match entryValues blocks e with
    | none => (st, false)
    | some bs => addIfCrefs st i.ea bs

/-- `notify_emu_ELSE`: jump to the owning block's `end_offset` (no
fallthrough is added here). -/
def notify_emu_ELSE (blocks : List Block) (bt : List (Nat × BTEntry))
    (st : EmuState) (i : InsnAt) : EmuState × Bool :=
  match alookup bt i.ea with
  | none => (st, true)
  | some e =>
    match entryValues blocks e with
    | none => (st, false)
    | some bs => addTableCrefs st i.ea bs

/-- `notify_emu_END`: first add the flows deferred onto this address, then
dispatch on the closing block's type: loops get a back-edge to the block's
start and never flow through; `if`/`block` closes fall through unless
marked no-flow; the function scope emits nothing. -/
def notify_emu_END (blocks : List Block) (bt : List (Nat × BTEntry))
    (st : EmuState) (i : InsnAt) : EmuState × Bool :=
  let flows := (alookup st.deferred_flows i.ea).getD []
  let st := { st with edges := st.edges ++ flows }
  match alookup bt i.ea with
  | none => (st, true)
  | some e =>
    match entrySelf blocks e with
    | none => (st, false)
    | some b =>
      match b.type with
      | BlockKind.loop => (addCref st i.ea b.offset CrefKind.fl_JF, true)
      | BlockKind.ifKind =>
        (if st.deferred_noflows.contains i.ea then st
         else addCref st i.ea (i.ea + i.len) CrefKind.fl_F, true)
      | BlockKind.block =>
        (if st.deferred_noflows.contains i.ea then st
         else addCref st i.ea (i.ea + i.len) CrefKind.fl_F, true)
      | BlockKind.function => (st, true)

/-- Does the next decoded instruction exist and have the given kind? -/
def isEndOp : WOp → Bool
  | WOp.endOp => true
  | _ => false

/-- Branch-class instructions (`Br`, `BrIf`, `BrTable`). -/
def isBranchClass : WOp → Bool
  | WOp.br _ => true
  | WOp.brIf _ => true
  | WOp.brTable _ _ => true
  | _ => false

/-- The `INSN_NO_FLOW` feature bit of the external `wasm` opcode table,
consulted by `ev_emu_insn` after the special next-is-`END` cases: it is
set on `unreachable` and `return` (the source's own comment reads
"handle other RETURN and UNREACHABLE instructions"). -/
def noFlowFeature : WOp → Bool
  | WOp.ret => true
  | WOp.unreachableOp => true
  | _ => false

/-- One invocation of `ev_emu_insn`, mirroring its `if`/`elif` chain in
source order.  Returns the updated state and `false` when the handler
raises (the exception is then swallowed by `no_exceptions`); side effects
performed before a raise are kept. -/
def emuStep (blocks : List Block) (bt : List (Nat × BTEntry)) (st : EmuState)
    (i : InsnAt) (nxt : Option InsnAt) : EmuState × Bool :=
  let nxtEnd := match nxt with
    | some n => isEndOp n.op
    | none => false
  let nxtUnreachable := match nxt with
    | some n => n.op = WOp.unreachableOp
    | none => false
  if isBranchClass i.op && nxtEnd then
    match i.op, nxt with
    | WOp.br d, some n => notify_emu_BR_END blocks bt st i n d
    | WOp.brIf d, some n => notify_emu_BR_IF_END blocks bt st i n d
    | WOp.brTable _ _, some _ => notify_emu_BR_TABLE_END blocks bt st i
    | _, _ => (st, false)
  else if i.op = WOp.ret && nxtEnd then
    match nxt with
    | some n => notify_emu_RETURN_END st i n
    | none => (st, false)
  else if i.op = WOp.unreachableOp && nxtEnd then
    match nxt with
    | some n => (addNoflow st n.ea, true)
    | none => (st, false)
  else if (match i.op with | WOp.br _ => true | _ => false) && nxtUnreachable then
    (st, true)
  else if noFlowFeature i.op then
    (st, true)
  else
    match i.op with
    | WOp.br d => notify_emu_BR blocks bt st i d
    | WOp.brTable _ _ => (st, false)
    | WOp.brIf d => notify_emu_BR_IF blocks bt st i d
    | WOp.ifOp => notify_emu_IF blocks bt st i
    | WOp.elseOp => notify_emu_ELSE blocks bt st i
    | WOp.endOp => notify_emu_END blocks bt st i
    | _ => (addCref st i.ea (i.ea + i.len) CrefKind.fl_F, true)

/-- Attach addresses to a decoded instruction stream starting at `offset`. -/
def insnAts (offset : Nat) : List Insn → List InsnAt
  | [] => []
  | i :: rest => { ea := offset, op := i.op, len := i.len } :: insnAts (offset + i.len) rest

/-- Run `ev_emu_insn` over every instruction of a body in address order
(IDA invokes it per instruction; a raise in one call does not stop the
others). -/
def emuRun (blocks : List Block) (bt : List (Nat × BTEntry)) :
    List InsnAt → EmuState → EmuState
  | [], st => st
  | i :: rest, st => emuRun blocks bt rest (emuStep blocks bt st i rest.head?).1

/-- Resolve one function body's branch targets and then synthesize its
control-flow edges.  `none` when the resolver itself raises. -/
def emuFunction (offset : Nat) (code : List Insn) : Option EmuState :=
  (compute_function_branch_targets offset code).map
    (fun cf => emuRun cf.blocks cf.branchTargets (insnAts offset code) emuInit)

/-- Typed failure of a table-building routine
(`SectionNotFoundError(section_id)`). -/
inductive WErr where
  | sectionNotFound (sid : Nat)
deriving DecidableEq, Repr

/-- One fragment of the decoded module list `self.sections`: its id byte
and its total encoded size (`size_of(section.data)`).  Fragment `0` is the
module header (magic + version); the `id` stored for it is whatever its
leading bytes happen to be — the lookups below never consult it. -/
structure Section where
  id : Nat
  size : Nat
deriving DecidableEq, Repr

/-- The indexed loop of `_get_section`, skipping fragment `0`. -/
def get_section_go (sid : Nat) (i : Nat) : List Section → Except WErr Section
  | [] => Except.error (WErr.sectionNotFound sid)
  | s :: rest =>
    if i = 0 then get_section_go sid (i + 1) rest
    else if s.id ≠ sid then get_section_go sid (i + 1) rest
    else Except.ok s

/-- `_get_section(section_id)`. -/
def get_section (sections : List Section) (sid : Nat) : Except WErr Section :=
  get_section_go sid 0 sections

/-- The indexed loop of `_get_section_offset`, accumulating the sizes of
skipped fragments (the header's size included). -/
def get_section_offset_go (sid : Nat) (i p : Nat) : List Section → Except WErr Nat
  | [] => Except.error (WErr.sectionNotFound sid)
  | s :: rest =>
    if i = 0 then get_section_offset_go sid (i + 1) (p + s.size) rest
    else if s.id ≠ sid then get_section_offset_go sid (i + 1) (p + s.size) rest
    else Except.ok p

/-- `_get_section_offset(section_id)`. -/
def get_section_offset (sections : List Section) (sid : Nat) : Except WErr Nat :=
  get_section_offset_go sid 0 0 sections

/-- The `kind` byte of an import/export entry
(`WASM_EXTERNAL_KIND_FUNCTION` etc.). -/
inductive ExternalKind where
  | func | table | mem | glob
deriving DecidableEq, Repr

/-- One entry of the import section.  `func_type` is the type index
(`entry.type.type`, kind = function), `content_type` the value type
(`entry.type.content_type`, kind = global); `entry_size` is
`size_of(body)`. -/
structure ImportEntry where
  kind : ExternalKind
  module_str : String
  field_str : String
  func_type : Nat
  content_type : Nat
  entry_size : Nat
deriving DecidableEq, Repr

/-- One entry of the export section. -/
structure ExportEntry where
  kind : ExternalKind
  index : Nat
  field_str : String
deriving DecidableEq, Repr

/-- A function-table record as far as the combined index/naming logic is
concerned (the type signature, byte offset and locals bookkeeping of the
Python dict are orthogonal to the index/name claims and elided). -/
structure FunctionRec where
  index : Nat
  name : String
  imported : Bool
  exported : Bool
deriving DecidableEq, Repr

/-- The counting loop of `_parse_imported_functions`: only entries of kind
function receive an index. -/
def parse_imported_functions_go (fi : Nat) : List ImportEntry → List FunctionRec
  | [] => []
  | e :: rest =>
    if e.kind = ExternalKind.func then
      { index := fi, name := e.field_str, imported := true, exported := false } ::
        parse_imported_functions_go (fi + 1) rest
    else parse_imported_functions_go fi rest

/-- `_parse_imported_functions`. -/
def parse_imported_functions (imports : List ImportEntry) : List FunctionRec :=
  parse_imported_functions_go 0 imports

/-- `_parse_exported_functions`: a dict from exported function index to
export field name (kind = function only; a duplicate index overwrites). -/
def parse_exported_functions (exports : List ExportEntry) : List (Nat × String) :=
  exports.foldl
    (fun m e => if e.kind = ExternalKind.func then upsert m e.index e.field_str else m) []

/-- The defined-function loop of `_parse_functions`: body `i` gets
combined index `n_imported + i`; an export entry at that index supplies
the name and the exported mark, otherwise the placeholder
`$func<index>`. -/
def parse_functions (imports : List ImportEntry) (exports : List ExportEntry)
    (nBodies : Nat) : List FunctionRec :=
  let imported := parse_imported_functions imports
  let exported := parse_exported_functions exports
  let n := imported.length
  imported ++ (List.range nBodies).map (fun i =>
    match alookup exported (n + i) with
    | some nm => { index := n + i, name := nm, imported := false, exported := true }
    | none =>
      { index := n + i, name := "$func" ++ toString (n + i),
        imported := false, exported := false })

/-- The one-instruction initializer expressions the global/data parsers
inspect (`body.init[0]` / `entry.offset[0]`). -/
inductive InitOp where
  | get_global (idx : Nat)
  | i32_const (v : Int)
  | otherInit
deriving DecidableEq, Repr

/-- A globals-table record (Python keys `index`, `offset`, `type`,
`name`; the `type` display string is represented by the underlying
`content_type` byte). -/
structure GlobalRec where
  index : Nat
  offset : Nat
  gtype : Nat
  name : String
deriving DecidableEq, Repr

/-- One entry of the global section: its value type, the byte offset of
its `init` field within the entry, its total size, and its decoded
initializer. -/
structure GlobalEntry where
  content_type : Nat
  init_pos : Nat
  entry_size : Nat
  init_ops : List InitOp
deriving DecidableEq, Repr

/-- The sections the globals pipeline consults, each `none` when absent
(`_get_section` would raise `SectionNotFoundError`); present sections
carry the byte position of their entries list and the entries. -/
structure GlobalsModule where
  import_sec : Option (Nat × List ImportEntry)
  global_sec : Option (Nat × List GlobalEntry)
deriving DecidableEq, Repr

/-- Python's `'%X' % n` (uppercase hexadecimal). -/
def pyHexUpper (n : Nat) : String :=
  ((Nat.toDigits 16 n).map Char.toUpper).asString

/-- The entry loop of `_parse_imported_globals`: every import entry
advances the byte cursor; only global-kind entries get an index and a
`module.field` name. -/
def parse_imported_globals_go (pcur i : Nat) : List ImportEntry → List GlobalRec
  | [] => []
  | e :: rest =>
    if e.kind = ExternalKind.glob then
      { index := i, offset := pcur, gtype := e.content_type,
        name := e.module_str ++ "." ++ e.field_str } ::
        parse_imported_globals_go (pcur + e.entry_size) (i + 1) rest
    else parse_imported_globals_go (pcur + e.entry_size) i rest

/-- `_parse_imported_globals`: raises `SectionNotFoundError` when
the import section is absent. -/
def parse_imported_globals (m : GlobalsModule) : Except WErr (List GlobalRec) :=
  match m.import_sec with
  | none => Except.error (WErr.sectionNotFound 2)
  | some (pentries, entries) => Except.ok (parse_imported_globals_go pentries 0 entries)

/-- The defined-globals loop of `_parse_globals`: default name
`global_%X`, replaced by `_<name>` when the one-instruction initializer
reads an already-known global. -/
def parse_globals_defined_go (pcur i : Nat) (acc : List GlobalRec) :
    List GlobalEntry → List GlobalRec
  | [] => acc
  | e :: rest =>
    let name :=
      match e.init_ops with
      | InitOp.get_global gi :: _ =>
        match acc.find? (fun g => g.index = gi) with
        | some g => "_" ++ g.name
        | none => "global_" ++ pyHexUpper i
      | _ => "global_" ++ pyHexUpper i
    let rec_ : GlobalRec :=
      { index := i, offset := pcur + e.init_pos, gtype := e.content_type, name := name }
    parse_globals_defined_go (pcur + e.entry_size) (i + 1) (acc ++ [rec_]) rest

/-- `_parse_globals`: the imported globals are parsed first with no
exception handling, so an absent import section aborts before the global
section is even consulted. -/
def parse_globals (m : GlobalsModule) : Except WErr (List GlobalRec) :=
  match parse_imported_globals m with
  | Except.error err => Except.error err
  | Except.ok imported =>
    match m.global_sec with
    | none => Except.error (WErr.sectionNotFound 6)
    | some (pglobals, entries) =>
      Except.ok (parse_globals_defined_go pglobals imported.length imported entries)

/-- The globals step of `load`: `self.globals = self._parse_globals()`
inside `try/except SectionNotFoundError`, which on failure leaves the
table at its initial empty value. -/
def load_globals (m : GlobalsModule) : List GlobalRec :=
  match parse_globals m with
  | Except.ok gs => gs
  | Except.error _ => []

/-- One entry of the data section: the encoded byte sizes of its `index`,
`offset`, `size` and `data` fields, the decoded offset initializer and the
declared size. -/
structure DataEntry where
  index_size : Nat
  offset_size : Nat
  size_size : Nat
  data_size : Nat
  offset_ops : List InitOp
  size_val : Nat
deriving DecidableEq, Repr

/-- A data-table record (`index`, `offset` = static memory offset,
`ea` = content address, `size`; the raw bytes are elided). -/
structure DataRec where
  index : Nat
  offset : Int
  ea : Nat
  size : Nat
deriving DecidableEq, Repr

/-- `size_of(entry)` of a data entry. -/
def entry_total_size (e : DataEntry) : Nat :=
  e.index_size + e.offset_size + e.size_size + e.data_size

/-- The entry loop of `_parse_data`: the content address is the cursor
plus the three header field sizes; the memory offset comes from a leading
`i32.const`, defaulting to `0`. -/
def parse_data_go (pcur i : Nat) : List DataEntry → List DataRec
  | [] => []
  | e :: rest =>
    let ea := pcur + e.index_size + e.offset_size + e.size_size
    let off : Int :=
      match e.offset_ops with
      | InitOp.i32_const v :: _ => v
      | _ => 0
    { index := i, offset := off, ea := ea, size := e.size_val } ::
      parse_data_go (pcur + entry_total_size e) (i + 1) rest

/-- `_parse_data`, given the byte position of the entries list. -/
def parse_data (pentries : Nat) (entries : List DataEntry) : List DataRec :=
  parse_data_go pentries 0 entries

/-- Membership test against the external `wasm` opcode table
(`opb in wasm.opcodes.OPCODE_MAP`), covering the MVP opcode bytes the
library defines. -/
def opcodeDefined (b : Nat) : Bool :=
  decide (b ≤ 0x05) || (decide (0x0b ≤ b) && decide (b ≤ 0x11)) ||
    decide (b = 0x1a) || decide (b = 0x1b) ||
    (decide (0x20 ≤ b) && decide (b ≤ 0x24)) ||
    (decide (0x28 ≤ b) && decide (b ≤ 0x40)) ||
    (decide (0x41 ≤ b) && decide (b ≤ 0xbf))

/-- Outcome of `ev_ana_insn`: either the bare failure value `0` (no
structured diagnostic travels with it) or a decoded instruction size. -/
inductive AnaResult where
  | failure
  | decoded (size : Nat)
deriving DecidableEq, Repr

/-- The opcode guard of `ev_ana_insn`: a byte missing from the opcode
table makes the handler return `0` immediately; otherwise decoding
proceeds and the instruction's total length `bclen` is consumed. -/
def ev_ana_insn (opb : Nat) (bclen : Nat) : AnaResult :=
  if opcodeDefined opb then AnaResult.decoded bclen else AnaResult.failure

/-- A Python value as returned by an IDA entry point. -/
inductive PyVal where
  | int (n : Int)
  | str (s : String)
  | noneVal
deriving DecidableEq, Repr

/-- An arbitrary Python exception (the decorator catches all of them). -/
inductive PyExn where
  | exn (msg : String)
deriving DecidableEq, Repr

/-- The `no_exceptions` decorator: run the wrapped function; a normal
result passes through unchanged, any raised exception is swallowed and
`0` is returned. -/
def no_exceptions {α : Type} (f : α → Except PyExn PyVal) (args : α) : PyVal :=
  match f args with
  | Except.ok v => v
  | Except.error _ => PyVal.int 0

/-! Helper lemmas shared by the claim theorems. -/

/-- A `br_table` depth list containing an out-of-range depth makes the
resolution loop raise, whatever happened before it. -/
theorem brTableGo_mem_none (stack : List Nat) (d : Nat) (hd : stack.length ≤ d) :
    ∀ (l : List Nat) (blocks : List Block) (entries : List (Nat × Nat)),
      d ∈ l → brTableGo blocks stack entries l = none := by
  intro l
  induction l with
  | nil => intro blocks entries hmem; cases hmem
  | cons x rest ih =>
    intro blocks entries hmem
    rcases List.mem_cons.mp hmem with hx | hrest
    · subst hx
      have hnone : stack[d]? = none := List.getElem?_eq_none hd
      simp [brTableGo, hnone]
    · cases hget : stack[x]? with
      | none => simp [brTableGo, hget]
      | some bi =>
        cases hb : blocks[bi]? with
        | none => simp [brTableGo, hget, hb]
        | some b => simp [brTableGo, hget, hb, ih _ _ hrest]

/-- Once the accumulator of the body loop is `none`, it stays `none`. -/
theorem foldl_cbtStep_none (l : List (Nat × List Insn)) :
    l.foldl cbtStep none = none := by
  induction l with
  | nil => rfl
  | cons b rest ih =>
    have h : cbtStep none b = none := by
      cases hc : compute_function_branch_targets b.1 b.2 <;> simp [cbtStep, hc]
    rw [List.foldl_cons, h, ih]

/-- A failing body maps any accumulator to `none`. -/
theorem cbtStep_fail (acc : Option (List (Nat × BTEntry))) (body : Nat × List Insn)
    (h : compute_function_branch_targets body.1 body.2 = none) :
    cbtStep acc body = none := by
  cases acc <;> simp [cbtStep, h]

/-- Unfolding of the `notify_emu_BR_TABLE_END` loop when every resolved
block has its `end_offset` back-filled. -/
theorem addTableCrefs_eq :
    ∀ (bs : List Block) (ts : List Nat) (st : EmuState) (src : Nat),
      endOffsets bs = some ts →
      addTableCrefs st src bs =
        ({ st with edges := (st.edges ++
            ts.map (fun t => { src := src, dst := t, kind := CrefKind.fl_JF })) }, true) := by
  intro bs
  induction bs with
  | nil =>
    intro ts st src h
    simp [endOffsets] at h
    subst h
    simp [addTableCrefs]
  | cons b rest ih =>
    intro ts st src h
    cases hb : b.end_offset with
    | none => simp [endOffsets, hb] at h
    | some t =>
      simp [endOffsets, hb] at h
      obtain ⟨ts', hts', rfl⟩ := h
      simp [addTableCrefs, hb, ih ts' _ src hts', addCref]

/-! ### C1: branch depth out of range -/

/-- C1 (counterexample): the claim says a bad branch depth is fatal only
to that function's resolution, other functions' branch targets being kept
and later functions still resolved.  In fact the second (well-formed)
body below resolves fine on its own, yet resolving it together with a
first body holding `Br 5` at block-stack depth 1 yields nothing at all:
the failure aborts the whole branch-target computation. -/
theorem c1_counterexample :
    compute_branch_targets [(100, [{ op := WOp.endOp, len := 1 }])] =
      some [(100, BTEntry.selfFun
        { index := 0, offset := 100, end_offset := some 100, else_offset := none,
          br_table_target := none, depth := 0, type := BlockKind.function })] ∧
    compute_branch_targets
      [(0, [{ op := WOp.blockOp, len := 2 }, { op := WOp.br 5, len := 2 },
            { op := WOp.endOp, len := 1 }]),
       (100, [{ op := WOp.endOp, len := 1 }])] = none := by
  decide

/-- C1 (amended): a `Br`/`BrIf`/`BrTable` whose relative depth is at least
the block-stack depth at that instruction makes the resolver raise an
untyped out-of-range error (there is no `InvalidBranchDepthError`), and —
there being no per-function handling in `_compute_branch_targets` — the
failure aborts the entire branch-target computation: maps already built
for earlier functions are discarded and later functions are not resolved.
The branch is never silently resolved to a wrong block. -/
theorem c1_amended :
    (∀ (fnStart : Nat) (st : CFState) (p : Nat) (i : Insn) (d : Nat),
        (i.op = WOp.br d ∨ i.op = WOp.brIf d) → st.blockStack.length ≤ d →
        stepCFG fnStart st p i = none) ∧
    (∀ (fnStart : Nat) (st : CFState) (p : Nat) (i : Insn)
        (ts : List Nat) (dflt d : Nat),
        i.op = WOp.brTable ts dflt → d ∈ ts ++ [dflt] → st.blockStack.length ≤ d →
        stepCFG fnStart st p i = none) ∧
    (∀ (bodies : List (Nat × List Insn)) (off : Nat) (code : List Insn),
        (off, code) ∈ bodies → compute_function_branch_targets off code = none →
        compute_branch_targets bodies = none) := by
  refine ⟨?_, ?_, ?_⟩
  · intro fnStart st p i d hop hd
    have hnone : st.blockStack[d]? = none := List.getElem?_eq_none hd
    obtain ⟨op, len⟩ := i
    rcases hop with h | h <;> (cases h; simp [stepCFG, hnone])
  · intro fnStart st p i ts dflt d hop hmem hd
    obtain ⟨op, len⟩ := i
    cases hop
    simp [stepCFG, brTableGo_mem_none st.blockStack d hd _ st.blocks [] hmem]
  · intro bodies off code hmem hfail
    obtain ⟨s, t, rfl⟩ := List.append_of_mem hmem
    unfold compute_branch_targets
    rw [List.foldl_append, List.foldl_cons,
      cbtStep_fail _ _ hfail, foldl_cbtStep_none]

/-- C1 (witness): the amended statement applied to concrete inputs: a
`Br 2` over a block stack of depth 1 raises, and a body list whose first
body fails resolves to nothing overall. -/
theorem c1_witness :
    stepCFG 0
      { blocks := [{ index := 0, offset := 0, end_offset := none, else_offset := none,
                     br_table_target := none, depth := 0, type := BlockKind.block }],
        blockStack := [0], branchTargets := [] }
      4 { op := WOp.br 2, len := 2 } = none ∧
    compute_branch_targets [(0, [{ op := WOp.br 2, len := 2 }]), (50, [])] = none := by
  constructor
  · exact c1_amended.1 0 _ 4 _ 2 (Or.inl rfl) (by decide)
  · exact c1_amended.2.2 _ 0 [{ op := WOp.br 2, len := 2 }] (by decide) (by decide)

/-! ### C2: the body `[Loop, Br(0), End]` -/

/-- C2 (counterexample): for the body `[Loop(len 2), Br 0 (len 2),
End(len 1)]` at offset `0` (`Br` at `2`, `End` at `4`), the claim says
the `Br` and the `End` emit exactly `Fallthrough(2→4)` and
`UnconditionalJump(4→0)`.  The actual edges originating at those two
instructions also include the deferred jump `4→5`: the `Br 0` resolves to
the loop block, whose `end_offset` (`5`) is what the deferred edge
targets. -/
theorem c2_counterexample :
    ¬ ((emuFunction 0 [{ op := WOp.loopOp, len := 2 }, { op := WOp.br 0, len := 2 },
          { op := WOp.endOp, len := 1 }]).map
        (fun st => st.edges.filter (fun e => e.src = 2 ∨ e.src = 4)) =
      some [{ src := 2, dst := 4, kind := CrefKind.fl_F },
            { src := 4, dst := 0, kind := CrefKind.fl_JF }]) := by
  decide

/-- C2 (amended): for the body `[Loop, Br(0), End]` the synthesized edges
are `Fallthrough(Br→End)`, the deferred `UnconditionalJump(End→5)` to the
resolved loop block's `end_offset` (the address one past the `End`, not
the loop start), and the back-edge `UnconditionalJump(End→Loop.offset)`;
the `End` is recorded in `deferred_noflows`, and a loop-closing `End`
emits no fallthrough regardless; no other edge is emitted for these
instructions (the `Loop` itself adds its ordinary fallthrough `0→2`). -/
theorem c2_amended :
    emuFunction 0 [{ op := WOp.loopOp, len := 2 }, { op := WOp.br 0, len := 2 },
        { op := WOp.endOp, len := 1 }] =
      some { edges := [{ src := 0, dst := 2, kind := CrefKind.fl_F },
                       { src := 2, dst := 4, kind := CrefKind.fl_F },
                       { src := 4, dst := 5, kind := CrefKind.fl_JF },
                       { src := 4, dst := 0, kind := CrefKind.fl_JF }],
             deferred_flows := [(4, [{ src := 4, dst := 5, kind := CrefKind.fl_JF }])],
             deferred_noflows := [4] } := by
  decide

/-! ### C3: `BrTable` immediately followed by `End` -/

/-- C3 (counterexample): for the body `[Block(len 2), BrTable [] 0
(len 3), End(len 1)]` at offset `0`, the `BrTable` at `2` is followed by
the `End` at `5`.  The claim says the `End` is marked NoFlow and emits no
fallthrough edge; in fact `notify_emu_BR_TABLE_END` never touches
`deferred_noflows` (it stays empty) and the `End` emits its ordinary
fallthrough edge `5→6`. -/
theorem c3_counterexample :
    (emuFunction 0 [{ op := WOp.blockOp, len := 2 }, { op := WOp.brTable [] 0, len := 3 },
        { op := WOp.endOp, len := 1 }]).map
      (fun st => (st.deferred_noflows,
        st.edges.contains { src := 5, dst := 6, kind := CrefKind.fl_F })) =
      some ([], true) := by
  decide

/-- C3 (amended): a `BrTable` immediately followed by an `End` emits one
`TableJump` edge from the `BrTable`'s own address to each distinct
resolved target block's `end_offset` (nothing is deferred onto the
`End`), but the following `End` is NOT marked NoFlow: the deferred maps
are left untouched, so the `End` emits its normal flow. -/
theorem c3_amended (blocks : List Block) (bt : List (Nat × BTEntry)) (st : EmuState)
    (i n : InsnAt) (tg : List Nat) (ds : Nat) (e : BTEntry) (bs : List Block)
    (ts : List Nat)
    (h1 : i.op = WOp.brTable tg ds) (h2 : n.op = WOp.endOp)
    (hbt : alookup bt i.ea = some e) (hv : entryValues blocks e = some bs)
    (hoff : endOffsets bs = some ts) :
    emuStep blocks bt st i (some n) =
      ({ st with edges := (st.edges ++
          ts.map (fun t => { src := i.ea, dst := t, kind := CrefKind.fl_JF })) }, true) := by
  obtain ⟨iea, iop, ilen⟩ := i
  obtain ⟨nea, nop, nlen⟩ := n
  cases h1
  cases h2
  simp only [emuStep, isBranchClass, isEndOp, Bool.and_self, if_true,
    notify_emu_BR_TABLE_END] at *
  simp [hbt, hv, addTableCrefs_eq bs ts st iea hoff]

/-- C3 (witness): the amended statement applied to the concrete
`[Block, BrTable [] 0, End]` situation: the single recorded target (the
block, `end_offset` 6) yields exactly the jump `2→6` and the state's
deferred maps stay empty. -/
theorem c3_witness :
    emuStep
      [{ index := 0, offset := 0, end_offset := some 6, else_offset := none,
         br_table_target := some 0, depth := 0, type := BlockKind.block }]
      [(0, BTEntry.selfRef 0), (2, BTEntry.branches [(0, 0)]), (5, BTEntry.selfRef 0)]
      emuInit
      { ea := 2, op := WOp.brTable [] 0, len := 3 }
      (some { ea := 5, op := WOp.endOp, len := 1 }) =
      ({ emuInit with edges := ([] ++
          [6].map (fun t => { src := 2, dst := t, kind := CrefKind.fl_JF })) }, true) := by
  exact c3_amended _ _ _ _ _ [] 0 (BTEntry.branches [(0, 0)])
    [{ index := 0, offset := 0, end_offset := some 6, else_offset := none,
       br_table_target := some 0, depth := 0, type := BlockKind.block }]
    [6] rfl rfl rfl rfl rfl

/-! ### C4: the `End` cases of the resolver -/

/-- C4: an `End` seen with a non-empty block stack pops the top block,
back-fills its `end_offset` with the `End`'s address plus its length and
records a self entry at the `End`'s address; an `End` seen with an empty
stack records a synthetic function-scope block (start = function start,
end = the `End`'s own address, depth 0) and stops the pass — whatever
instructions follow contribute nothing. -/
theorem c4_end_handling :
    (∀ (fnStart p len : Nat) (rest : List Insn) (st : CFState),
        st.blockStack = [] →
        runCFG fnStart ({ op := WOp.endOp, len := len } :: rest) st p =
          some ({ st with branchTargets := (upsert st.branchTargets p
            (BTEntry.selfFun { index := 0, offset := fnStart, end_offset := some p,
                               else_offset := none, br_table_target := none,
                               depth := 0, type := BlockKind.function })) })) ∧
    (∀ (fnStart p len : Nat) (st : CFState) (bi : Nat) (stk : List Nat) (b : Block),
        st.blockStack = bi :: stk → st.blocks.get? bi = some b →
        stepCFG fnStart st p { op := WOp.endOp, len := len } =
          some ({ blocks := st.blocks.set bi ({ b with end_offset := some (p + len) }),
                  blockStack := stk,
                  branchTargets := upsert st.branchTargets p (BTEntry.selfRef bi) },
                false)) := by
  constructor
  · intro fnStart p len rest st hstk
    obtain ⟨blocks, stack, btm⟩ := st
    simp only at hstk
    subst hstk
    simp [runCFG, stepCFG]
  · intro fnStart p len st bi stk b hstk hb
    obtain ⟨blocks, stack, btm⟩ := st
    simp only at hstk hb
    subst hstk
    rw [List.get?_eq_getElem?] at hb
    simp [stepCFG, hb]

/-- C4 (witness): both `End` cases at concrete states: the empty-stack
case at address 3 in a body with a trailing instruction (ignored), and
the pop case closing block 0 at address 7. -/
theorem c4_witness :
    runCFG 0 [{ op := WOp.endOp, len := 1 }, { op := WOp.br 0, len := 2 }]
        { blocks := [], blockStack := [], branchTargets := [] } 3 =
      some { blocks := [], blockStack := [],
             branchTargets := [(3, BTEntry.selfFun
               { index := 0, offset := 0, end_offset := some 3, else_offset := none,
                 br_table_target := none, depth := 0, type := BlockKind.function })] } ∧
    stepCFG 0
        { blocks := [{ index := 0, offset := 1, end_offset := none, else_offset := none,
                       br_table_target := none, depth := 0, type := BlockKind.loop }],
          blockStack := [0], branchTargets := [] }
        7 { op := WOp.endOp, len := 1 } =
      some ({ blocks := [{ index := 0, offset := 1, end_offset := some 8,
                           else_offset := none, br_table_target := none, depth := 0,
                           type := BlockKind.loop }],
              blockStack := [], branchTargets := [(7, BTEntry.selfRef 0)] }, false) := by
  constructor
  · exact c4_end_handling.1 0 3 1 [{ op := WOp.br 0, len := 2 }] _ rfl
  · exact c4_end_handling.2 0 7 1 _ 0 []
      { index := 0, offset := 1, end_offset := none, else_offset := none,
        br_table_target := none, depth := 0, type := BlockKind.loop } rfl rfl

/-! ### C6: globals parsing when the import section is absent -/

/-- C6 (counterexample): the claim says that with the import section
absent but the global section present, the module-local globals are still
parsed and only the imported entries are missing.  In fact
`_parse_globals` calls `_parse_imported_globals` first with no handler,
the `SectionNotFoundError` propagates, `load` catches it, and the globals
table is left entirely empty — the defined global below never appears. -/
theorem c6_counterexample :
    parse_globals
      { import_sec := none,
        global_sec := some (10, [{ content_type := 0x7F, init_pos := 3, entry_size := 7,
                                   init_ops := [InitOp.i32_const 0] }]) } =
      Except.error (WErr.sectionNotFound 2) ∧
    load_globals
      { import_sec := none,
        global_sec := some (10, [{ content_type := 0x7F, init_pos := 3, entry_size := 7,
                                   init_ops := [InitOp.i32_const 0] }]) } = [] := by
  constructor <;> rfl

/-- C6 (amended): when the import section is absent, `_parse_globals`
signals `SectionNotFoundError` before the global section is even
consulted; `load` catches the error and leaves the globals table empty,
so no module-local global is parsed either. -/
theorem c6_amended (m : GlobalsModule) (h : m.import_sec = none) :
    parse_globals m = Except.error (WErr.sectionNotFound 2) ∧ load_globals m = [] := by
  obtain ⟨imp, glob⟩ := m
  simp only at h
  subst h
  constructor <;> rfl

/-- C6 (witness): the amended statement at a concrete module with one
defined global and no import section. -/
theorem c6_witness :
    parse_globals
      { import_sec := none,
        global_sec := some (20, [{ content_type := 0x7E, init_pos := 2, entry_size := 9,
                                   init_ops := [InitOp.get_global 0] }]) } =
      Except.error (WErr.sectionNotFound 2) ∧
    load_globals
      { import_sec := none,
        global_sec := some (20, [{ content_type := 0x7E, init_pos := 2, entry_size := 9,
                                   init_ops := [InitOp.get_global 0] }]) } = [] :=
  c6_amended _ rfl

/-! ### C7: unknown opcode byte -/

/-- C7 (counterexample): byte `0x06` is absent from the opcode table; the
claim says `ev_ana_insn` then signals a typed `UnknownOpcodeError`
carrying the byte, but the handler just returns the bare failure value
`0` — `AnaResult.failure` carries no diagnostic (no such error class
exists in the source). -/
theorem c7_counterexample :
    opcodeDefined 6 = false ∧ ev_ana_insn 6 5 = AnaResult.failure := by
  decide

/-- C7 (amended): an opcode byte absent from the opcode table makes
`ev_ana_insn` return the undiagnosed failure value `0` immediately; no
typed error is raised. -/
theorem c7_amended (b n : Nat) (h : opcodeDefined b = false) :
    ev_ana_insn b n = AnaResult.failure := by
  simp [ev_ana_insn, h]

/-- C7 (witness): the amended statement at the reserved byte `0x12`. -/
theorem c7_witness : ev_ana_insn 18 7 = AnaResult.failure :=
  c7_amended 18 7 (by decide)

/-! ### C10: the `no_exceptions` decorator -/

/-- C10: a function wrapped by `no_exceptions` returns the wrapped
function's result unchanged when no exception is raised, and returns `0`
when any exception is raised — no exception escapes the wrapper. -/
theorem c10_no_exceptions {α : Type} (f : α → Except PyExn PyVal) (a : α) :
    (∀ v, f a = Except.ok v → no_exceptions f a = v) ∧
    (∀ e, f a = Except.error e → no_exceptions f a = PyVal.int 0) := by
  constructor <;> intro x hx <;> simp [no_exceptions, hx]

/-- C10 (witness): the wrapper at a raising and at a normally returning
function. -/
theorem c10_witness :
    no_exceptions (fun _ : Unit => Except.error (PyExn.exn "boom")) () = PyVal.int 0 ∧
    no_exceptions (fun _ : Unit => Except.ok (PyVal.int 7)) () = PyVal.int 7 :=
  ⟨(c10_no_exceptions (fun _ : Unit => Except.error (PyExn.exn "boom")) ()).2
      (PyExn.exn "boom") rfl,
   (c10_no_exceptions (fun _ : Unit => Except.ok (PyVal.int 7)) ()).1 (PyVal.int 7) rfl⟩

/-! ### C5: the combined function index space -/

/-- Position `j` of the imported-function list built from counter `k`
holds an imported, non-exported record with index `k + j`. -/
theorem pif_go_get? (l : List ImportEntry) :
    ∀ (k j : Nat), j < (parse_imported_functions_go k l).length →
      ∃ f, (parse_imported_functions_go k l).get? j = some f ∧
        f.index = k + j ∧ f.imported = true ∧ f.exported = false := by
  induction l with
  | nil => intro k j hj; simp [parse_imported_functions_go] at hj
  | cons e rest ih =>
    intro k j hj
    by_cases he : e.kind = ExternalKind.func
    · simp only [parse_imported_functions_go, if_pos he] at hj ⊢
      cases j with
      | zero => exact ⟨_, rfl, by simp, rfl, rfl⟩
      | succ j' =>
        have hj' : j' < (parse_imported_functions_go (k + 1) rest).length := by
          simpa using hj
        obtain ⟨f, hget, hidx, himp, hexp⟩ := ih (k + 1) j' hj'
        exact ⟨f, by simpa using hget, by omega, himp, hexp⟩
    · simp only [parse_imported_functions_go, if_neg he] at hj ⊢
      exact ih k j hj

/-- C5: the function table is contiguous — the `n` imported functions
occupy positions (and indices) `0..n-1` and the `m` defined bodies occry
indices `n..n+m-1`; a defined function whose combined index appears in
the export dict gets that export's field name and the exported mark, any
other defined function gets the `$func<index>` placeholder and is not
exported. -/
theorem c5_function_table (imports : List ImportEntry) (exports : List ExportEntry)
    (m : Nat) :
    (parse_functions imports exports m).length =
        (parse_imported_functions imports).length + m ∧
    (∀ j, j < (parse_imported_functions imports).length →
      ∃ f, (parse_functions imports exports m).get? j = some f ∧
        f.index = j ∧ f.imported = true) ∧
    (∀ i, i < m →
      (match alookup (parse_exported_functions exports)
          ((parse_imported_functions imports).length + i) with
       | some nm =>
         (parse_functions imports exports m).get?
             ((parse_imported_functions imports).length + i) =
           some { index := (parse_imported_functions imports).length + i, name := nm,
                  imported := false, exported := true }
       | none =>
         (parse_functions imports exports m).get?
             ((parse_imported_functions imports).length + i) =
           some { index := (parse_imported_functions imports).length + i,
                  name := "$func" ++
                    toString ((parse_imported_functions imports).length + i),
                  imported := false, exported := false })) := by
  refine ⟨?_, ?_, ?_⟩
  · simp [parse_functions]
  · intro j hj
    obtain ⟨f, hget, hidx, himp, _⟩ := pif_go_get? imports 0 j hj
    refine ⟨f, ?_, by simpa using hidx, himp⟩
    simp only [parse_functions]
    rw [List.get?_append hj]
    exact hget
  · intro i hi
    have hsplit : (parse_functions imports exports m).get?
        ((parse_imported_functions imports).length + i) =
        (((List.range m).map (fun k =>
          match alookup (parse_exported_functions exports)
              ((parse_imported_functions imports).length + k) with
          | some nm =>
            ({ index := (parse_imported_functions imports).length + k, name := nm,
               imported := false, exported := true } : FunctionRec)
          | none =>
            ({ index := (parse_imported_functions imports).length + k,
               name := "$func" ++
                 toString ((parse_imported_functions imports).length + k),
               imported := false, exported := false } : FunctionRec))).get? i) := by
      simp only [parse_functions]
      rw [List.get?_append_right (by omega)]
      simp
    rw [List.get?_map, List.get?_range hi] at hsplit
    rw [List.get?_eq_getElem?] at hsplit
    cases halo : alookup (parse_exported_functions exports)
        ((parse_imported_functions imports).length + i) <;>
      simp only [halo, Option.map_some'] at hsplit <;> simp [halo, hsplit]

/-- C5 (witness): Scenario D — two function imports plus one defined body
exported at combined index 2 under the name `main`: the table has three
entries, entry 0 is imported with index 0, and entry 2 is the defined
function named `main`, marked exported. -/
theorem c5_witness :
    (parse_functions
        [{ kind := ExternalKind.func, module_str := "env", field_str := "f0",
           func_type := 0, content_type := 0, entry_size := 8 },
         { kind := ExternalKind.func, module_str := "env", field_str := "f1",
           func_type := 1, content_type := 0, entry_size := 8 }]
        [{ kind := ExternalKind.func, index := 2, field_str := "main" }] 1).length = 3 ∧
    (parse_functions
        [{ kind := ExternalKind.func, module_str := "env", field_str := "f0",
           func_type := 0, content_type := 0, entry_size := 8 },
         { kind := ExternalKind.func, module_str := "env", field_str := "f1",
           func_type := 1, content_type := 0, entry_size := 8 }]
        [{ kind := ExternalKind.func, index := 2, field_str := "main" }] 1).get? 2 =
      some { index := 2, name := "main", imported := false, exported := true } := by
  constructor
  · exact (c5_function_table _ _ 1).1
  · have h := (c5_function_table
      [{ kind := ExternalKind.func, module_str := "env", field_str := "f0",
         func_type := 0, content_type := 0, entry_size := 8 },
       { kind := ExternalKind.func, module_str := "env", field_str := "f1",
         func_type := 1, content_type := 0, entry_size := 8 }]
      [{ kind := ExternalKind.func, index := 2, field_str := "main" }] 1).2.2 0
      (by decide)
    simpa using h

/-! ### C8: section lookup -/

/-- For a loop index at least 1, `_get_section`'s scan returns the first
later fragment whose id matches. -/
theorem get_section_go_pos (sid : Nat) (rest : List Section) :
    ∀ i, 1 ≤ i →
      get_section_go sid i rest =
        (match rest.find? (fun s => s.id = sid) with
         | some s => Except.ok s
         | none => Except.error (WErr.sectionNotFound sid)) := by
  induction rest with
  | nil => intro i hi; rfl
  | cons s rest ih =>
    intro i hi
    have hne : ¬ (i = 0) := by omega
    by_cases hid : s.id = sid
    · simp [get_section_go, hne, hid]
    · simp [get_section_go, hne, hid, ih (i + 1) (by omega)]

/-- For a loop index at least 1, `_get_section_offset`'s scan returns the
accumulator plus the sizes of the skipped fragments before the first
match. -/
theorem get_section_offset_go_pos (sid : Nat) (rest : List Section) :
    ∀ i p, 1 ≤ i →
      get_section_offset_go sid i p rest =
        (match rest.find? (fun s => s.id = sid) with
         | some _ =>
           Except.ok (p + ((rest.takeWhile (fun s => s.id ≠ sid)).map Section.size).sum)
         | none => Except.error (WErr.sectionNotFound sid)) := by
  induction rest with
  | nil => intro i p hi; rfl
  | cons s rest ih =>
    intro i p hi
    have hne : ¬ (i = 0) := by omega
    by_cases hid : s.id = sid
    · simp [get_section_offset_go, hne, hid, List.takeWhile]
    · simp only [get_section_offset_go, if_neg hne, hid, if_neg (by simpa using hid),
        ih (i + 1) (p + s.size) (by omega)]
      cases hf : rest.find? (fun s => s.id = sid) <;>
        simp [List.find?_cons, hid, hf, List.takeWhile, Nat.add_assoc]

/-- C8: `_get_section` returns the first fragment after the index-0
module header whose id equals the requested kind — the header fragment is
never matched, whatever its id bytes — and raises `SectionNotFoundError`
when no such fragment exists; `_get_section_offset` returns the sum of
the byte sizes of all fragments (header included) preceding the returned
section. -/
theorem c8_section_lookup (hd : Section) (rest : List Section) (sid : Nat) :
    get_section (hd :: rest) sid =
      (match rest.find? (fun s => s.id = sid) with
       | some s => Except.ok s
       | none => Except.error (WErr.sectionNotFound sid)) ∧
    get_section_offset (hd :: rest) sid =
      (match rest.find? (fun s => s.id = sid) with
       | some _ =>
         Except.ok (hd.size +
           ((rest.takeWhile (fun s => s.id ≠ sid)).map Section.size).sum)
       | none => Except.error (WErr.sectionNotFound sid)) := by
  constructor
  · show get_section_go sid 0 (hd :: rest) = _
    rw [show get_section_go sid 0 (hd :: rest) = get_section_go sid 1 rest from rfl]
    exact get_section_go_pos sid rest 1 (by omega)
  · show get_section_offset_go sid 0 0 (hd :: rest) = _
    rw [show get_section_offset_go sid 0 0 (hd :: rest) =
          get_section_offset_go sid 1 (0 + hd.size) rest from rfl]
    rw [get_section_offset_go_pos sid rest 1 (0 + hd.size) (by omega)]
    cases hf : rest.find? (fun s => s.id = sid) <;> simp [hf]

/-! ### C9: data segment content addresses -/

/-- The content addresses produced by the data-entry loop are strictly
increasing, provided every entry's `index` varint occupies at least one
byte (true of every encoded varint). -/
theorem parse_data_go_chain :
    ∀ (entries : List DataEntry) (pcur i : Nat),
      (∀ e ∈ entries, 1 ≤ e.index_size) →
      List.Chain' (· < ·) ((parse_data_go pcur i entries).map DataRec.ea) := by
  intro entries
  induction entries with
  | nil => intro pcur i _; simp [parse_data_go]
  | cons e rest ih =>
    intro pcur i h
    have hrest : ∀ x ∈ rest, 1 ≤ x.index_size :=
      fun x hx => h x (List.mem_cons_of_mem _ hx)
    simp only [parse_data_go, List.map_cons]
    rw [List.chain'_cons']
    refine ⟨?_, ih (pcur + entry_total_size e) (i + 1) hrest⟩
    cases rest with
    | nil => simp [parse_data_go]
    | cons e2 rest2 =>
      have h2 : 1 ≤ e2.index_size := hrest e2 (List.mem_cons_self _ _)
      simp only [parse_data_go, List.map_cons, List.head?_cons, Option.mem_def,
        Option.some_inj]
      intro y hy
      subst hy
      simp only [entry_total_size]
      omega

/-- C9: in the parsed data table, every pair of consecutive entries has
strictly increasing content addresses (`ea`). -/
theorem c9_data_ea_monotonic (pentries : Nat) (entries : List DataEntry)
    (h : ∀ e ∈ entries, 1 ≤ e.index_size) :
    List.Chain' (· < ·) ((parse_data pentries entries).map DataRec.ea) :=
  parse_data_go_chain entries pentries 0 h

/-- C9 (witness): two concrete data entries starting at byte 100. -/
theorem c9_witness :
    List.Chain' (· < ·) ((parse_data 100
      [{ index_size := 1, offset_size := 4, size_size := 2, data_size := 10,
         offset_ops := [InitOp.i32_const 16], size_val := 10 },
       { index_size := 1, offset_size := 4, size_size := 1, data_size := 3,
         offset_ops := [], size_val := 3 }]).map DataRec.ea) :=
  c9_data_ea_monotonic 100 _ (by decide)

end Idawasm
